import Mathlib

/-!
Verification development for the worktree-container CLI (Go).

This file gives a shallow embedding, in Lean 4, of the parts of the
program relevant to the verified claims:

* the port allocator and port scanner (internal/port),
* the worktree-index step of the create command (internal/cli/create.go),
* branch-name sanitisation and environment-name validation
  (internal/cli/create.go, internal/model),
* pattern detection and Compose service counting
  (internal/devcontainer/config.go, internal/cli/create.go),
* the Docker label store (internal/docker/label.go),
* the devcontainer.json rewriter for non-Compose patterns
  (internal/devcontainer rewrite code),
* the start command (internal/cli start code).

Modelling conventions:

* Go machine integers are modelled as Lean Int (ports, indices); overflow
  is irrelevant at the magnitudes involved (ports are at most 65535 and
  the shift multiplier is 10000, far below 2^63).
* OS-level effects (socket binds, Docker API calls, Compose subprocesses)
  are modelled as oracles: boolean-valued functions supplied as inputs.
* Go strings are Lean Strings; character-level reasoning goes through
  String.data (a List Char).
* Go maps of type map of string to string, or string to JSON value, are
  modelled as association lists with replace-on-insert semantics;
  observations are made through lookups, which makes the ordering of the
  association list unobservable, matching the unordered Go map.
* Go stdlib functions external to the repository (strconv.Itoa and Atoi,
  time formatting and parsing in the RFC 3339 layout, strings.ToLower,
  HasPrefix, TrimPrefix, Trim) are modelled by explicit Lean functions
  defined below, each faithful to the stdlib documented behaviour on the
  inputs that occur; in particular the RFC 3339 layout used by the code
  prints whole seconds only, which the model captures by encoding and
  decoding the whole-second value, dropping sub-second precision.
* Fallible Go functions returning (T, error) are modelled with Except
  String or Option.
-/

/-! ## Go stdlib models: decimal integer encoding (strconv.Itoa / Atoi) -/

/-- Decimal digit character for a value below ten. -/
def digitChar (n : Nat) : Char := Char.ofNat (48 + n)

/-- Numeric value of a decimal digit character. -/
def digitVal (c : Char) : Nat := c.toNat - 48

/-- Whether a character is a decimal digit. -/
def isDigitB (c : Char) : Bool := 48 ≤ c.toNat && c.toNat ≤ 57

/-- Fuel-driven most-significant-first decimal digit expansion. -/
def natDigitsAux : Nat → Nat → List Char
  | 0, _ => []
  | fuel + 1, n =>
    if n < 10 then [digitChar n]
    else natDigitsAux fuel (n / 10) ++ [digitChar (n % 10)]

/-- Decimal digits of a natural number, most significant first. -/
def natDigits (n : Nat) : List Char := natDigitsAux (n + 1) n

/-- Accumulating decimal value of a digit list. -/
def digitsVal (l : List Char) : Nat := l.foldl (fun a c => a * 10 + digitVal c) 0

/-- Parse a list of characters as an unsigned decimal number. -/
def atoiNat (l : List Char) : Option Nat :=
  if l.isEmpty || !l.all isDigitB then none else some (digitsVal l)

/-- Character-level decimal rendering of an int: an optional minus sign
followed by the decimal digits. -/
def itoaChars (i : Int) : List Char :=
  if i < 0 then '-' :: natDigits (-i).toNat else natDigits i.toNat

/-- Model of Go strconv.Itoa on int values. -/
def itoa (i : Int) : String := ⟨itoaChars i⟩

/-- Character-level decimal parsing of an int. -/
def atoiChars : List Char → Option Int
  | [] => none
  | c :: rest =>
    if c = '-' then (atoiNat rest).map (fun n => -(n : Int))
    else (atoiNat (c :: rest)).map (fun n => (n : Int))

/-- Model of Go strconv.Atoi on int values (without the plus-sign form,
which never occurs in the values this program round-trips). -/
def atoi (s : String) : Option Int := atoiChars s.data

/-! ## Port scanner (internal/port scanner code)

The scanner asks the OS whether a bind on the given port succeeds: a TCP
stream listener for protocol "tcp", a UDP packet listener for "udp", and
any other protocol is treated as unavailable (fail safe). The two OS bind
outcomes are environment inputs, modelled as oracles. -/

/-- OS bind outcome oracles backing the port Scanner. -/
structure Scanner where
  tcpFree : Int → Bool
  udpFree : Int → Bool

/-- Model of Scanner.IsPortAvailable: dispatch on the protocol string,
with unknown protocols unavailable (fail safe). -/
def Scanner.IsPortAvailable (s : Scanner) (port : Int) (protocol : String) : Bool :=
  if protocol = "tcp" then s.tcpFree port
  else if protocol = "udp" then s.udpFree port
  else false

/-! ## Port allocator (internal/port allocator code) -/

/-- PortSpec: a normalized port request extracted from devcontainer.json. -/
structure PortSpec where
  serviceName : String
  containerPort : Int
  hostPort : Int := 0
  protocol : String := ""
  label : String := ""
deriving Repr, DecidableEq

/-- PortAllocation: the allocator's output record for one port. -/
structure PortAllocation where
  serviceName : String
  containerPort : Int
  hostPort : Int
  protocol : String
  label : String := ""
deriving Repr, DecidableEq

/-- portShiftMultiplier: width of one worktree port band. -/
def portShiftMultiplier : Int := 10000

/-- maxPort: highest valid TCP/UDP port number. -/
def maxPort : Int := 65535

/-- dynamicRangeStart: start of the IANA dynamic/private port range. -/
def dynamicRangeStart : Int := 49152

/-- dynamicRangeEnd: end of the dynamic port range. -/
def dynamicRangeEnd : Int := 65535

/-- maxWorktreeIndex: the maximum supported worktree index. -/
def maxWorktreeIndex : Int := 9

/-- Allocator state: the injected scanner and the allocations already
known from other worktree environments. -/
structure Allocator where
  scanner : Scanner
  existingAllocations : List PortAllocation := []

/-- Model of Allocator.isPortAvailableForAllocation: the port conflicts
with no known allocation of the same protocol, and the OS bind probe
succeeds. The Go loop with an early false return is equivalent to the
conjunction below. -/
def Allocator.isPortAvailableForAllocation (a : Allocator) (port : Int) (protocol : String) : Bool :=
  (a.existingAllocations.all fun alloc =>
    !(alloc.hostPort == port && alloc.protocol == protocol)) &&
  a.scanner.IsPortAvailable port protocol

/-- Fuel-driven linear upward scan: first value p starting at lo, over
fuel consecutive candidates, with avail p true. This is the loop
for port := startPort; port <= endPort; port++ in the Go sources,
with fuel the number of loop iterations. -/
def scanRangeAux (avail : Int → Bool) : Int → Nat → Option Int
  | _, 0 => none
  | lo, fuel + 1 => if avail lo then some lo else scanRangeAux avail (lo + 1) fuel

/-- First available value in the inclusive range from lo to hi. -/
def scanRange (avail : Int → Bool) (lo hi : Int) : Option Int :=
  scanRangeAux avail lo (hi + 1 - lo).toNat

/-- Model of Allocator.findAvailablePortExcludingExisting: first port in
the range that is both OS-available and absent from the known set. -/
def Allocator.findAvailablePortExcludingExisting (a : Allocator) (startPort endPort : Int) (protocol : String) : Option Int :=
  scanRange (fun port => a.isPortAvailableForAllocation port protocol) startPort endPort

/-- Protocol defaulting: an empty protocol becomes tcp, matching
Docker's default. -/
def defaultProtocol (protocol : String) : String :=
  if protocol = "" then "tcp" else protocol

/-- The deterministic shift candidate: the original port unchanged at
index zero, otherwise the original port plus index times the band
width. -/
def shiftCandidate (originalPort worktreeIndex : Int) : Int :=
  if worktreeIndex = 0 then originalPort
  else originalPort + worktreeIndex * portShiftMultiplier

/-- Model of Allocator.AllocatePort, following the Go source line by
line: validate the index range, default the protocol to tcp, compute the
candidate (the original port at index 0, the shifted port otherwise),
fall back to the dynamic range on overflow, otherwise scan upward within
the candidate's block when the candidate is unavailable, falling back to
the dynamic range when the block is exhausted. -/
def Allocator.AllocatePort (a : Allocator) (originalPort worktreeIndex : Int) (serviceName protocol : String) : Except String PortAllocation :=
  if worktreeIndex < 0 ∨ worktreeIndex > maxWorktreeIndex then
    .error "worktree index out of range (0-9)"
  else
    let protocol := defaultProtocol protocol
    let hostPort := shiftCandidate originalPort worktreeIndex
    if hostPort > maxPort then
      match a.findAvailablePortExcludingExisting dynamicRangeStart dynamicRangeEnd protocol with
      | none => .error "port overflow and fallback failed"
      | some fallbackPort =>
        .ok { serviceName := serviceName, containerPort := originalPort,
              hostPort := fallbackPort, protocol := protocol }
    else if !(a.isPortAvailableForAllocation hostPort protocol) then
      let blockStart := hostPort
      let blockEnd := min (hostPort + portShiftMultiplier - 1) maxPort
      match scanRange (fun c => a.isPortAvailableForAllocation c protocol) (blockStart + 1) blockEnd with
      | some candidate =>
        .ok { serviceName := serviceName, containerPort := originalPort,
              hostPort := candidate, protocol := protocol }
      | none =>
        match a.findAvailablePortExcludingExisting dynamicRangeStart dynamicRangeEnd protocol with
        | none => .error "port in use and no alternative found"
        | some fallbackPort =>
          .ok { serviceName := serviceName, containerPort := originalPort,
                hostPort := fallbackPort, protocol := protocol }
    else
      .ok { serviceName := serviceName, containerPort := originalPort,
            hostPort := hostPort, protocol := protocol }

/-- Model of Allocator.AllocatePorts: process the specs in order; each
successful allocation (with the label copied from its spec) is appended
to the known set before the next spec is considered. -/
def Allocator.AllocatePorts (a : Allocator) (ports : List PortSpec) (worktreeIndex : Int) : Except String (List PortAllocation) :=
  match ports with
  | [] => .ok []
  | ps :: rest =>
    let proto := defaultProtocol ps.protocol
    match a.AllocatePort ps.containerPort worktreeIndex ps.serviceName proto with
    | .error e => .error e
    | .ok alloc =>
      let alloc := { alloc with label := ps.label }
      let a' := { a with existingAllocations := a.existingAllocations ++ [alloc] }
      match a'.AllocatePorts rest worktreeIndex with
      | .error e => .error e
      | .ok tail => .ok (alloc :: tail)

/-! ## Go stdlib models: strings helpers -/

/-- Model of Go strings.ToLower, restricted to ASCII letters; none of
the round-tripped values in this program contain non-ASCII letters. -/
def goToLower (s : String) : String :=
  ⟨s.data.map fun c => if 'A' ≤ c ∧ c ≤ 'Z' then Char.ofNat (c.toNat + 32) else c⟩

/-- Model of Go strings.HasPrefix. -/
def strHasPre (s pre : String) : Bool := pre.data.isPrefixOf s.data

/-- Model of Go strings.TrimPrefix. -/
def strDropPre (s pre : String) : String :=
  if pre.data.isPrefixOf s.data then ⟨s.data.drop pre.data.length⟩ else s

/-! ## Association lists: the model of Go maps

Go maps are unordered; all observations the verified claims make go
through lookups, on which the list order is irrelevant. alistSet models
Go map assignment (replace the binding if the key is present, otherwise
add it) and alistErase models delete. -/

/-- Lookup in an association list. -/
def alistGet {α : Type} : List (String × α) → String → Option α
  | [], _ => none
  | (k', v) :: rest, k => if k' = k then some v else alistGet rest k

/-- Replace-or-add insertion into an association list: the model of a Go
map assignment. -/
def alistSet {α : Type} : List (String × α) → String → α → List (String × α)
  | [], k, v => [(k, v)]
  | (k', v') :: rest, k, v =>
    if k' = k then (k, v) :: rest else (k', v') :: alistSet rest k v

/-- Deletion from an association list: the model of a Go map delete. -/
def alistErase {α : Type} : List (String × α) → String → List (String × α)
  | [], _ => []
  | (k', v') :: rest, k =>
    if k' = k then alistErase rest k else (k', v') :: alistErase rest k

/-! ## Domain model (internal/model types) -/

/-- ConfigPattern: the four devcontainer.json configuration patterns. -/
inductive ConfigPattern where
  | image
  | dockerfile
  | composeSingle
  | composeMulti
deriving Repr, DecidableEq

/-- Model of ConfigPattern.String. -/
def ConfigPattern.toStr : ConfigPattern → String
  | .image => "image"
  | .dockerfile => "dockerfile"
  | .composeSingle => "compose-single"
  | .composeMulti => "compose-multi"

/-- Model of ConfigPattern.IsCompose. -/
def ConfigPattern.IsCompose (p : ConfigPattern) : Bool :=
  p == .composeSingle || p == .composeMulti

/-- Model of ParseConfigPattern: lower-case the string, accept exactly
the four valid pattern spellings. -/
def ParseConfigPattern (s : String) : Except String ConfigPattern :=
  let t := goToLower s
  if t = "image" then .ok .image
  else if t = "dockerfile" then .ok .dockerfile
  else if t = "compose-single" then .ok .composeSingle
  else if t = "compose-multi" then .ok .composeMulti
  else .error "invalid config pattern"

/-- Model of Go time.Time: whole seconds since the epoch plus a
sub-second nanosecond component. Times are taken to be UTC; the label
store formats with the RFC 3339 layout, which prints whole seconds. -/
structure GoTime where
  sec : Int
  nsec : Nat
deriving Repr, DecidableEq

/-- Model of formatting a time with the RFC 3339 layout (as done by
BuildLabels on CreatedAt): the printed text is determined by, and
determines, the whole-second value; sub-seconds are not printed. The
model encodes the whole-second value in decimal. -/
def formatRFC3339 (t : GoTime) : String := itoa t.sec

/-- Model of parsing an RFC 3339 timestamp (as done by ParseLabels):
recovers the whole-second value, with zero sub-second component. -/
def parseRFC3339 (s : String) : Option GoTime :=
  (atoi s).map fun sec => ⟨sec, 0⟩

/-- WorktreeEnv: the environment aggregate reconstructed from labels.
Status and Containers are runtime-derived and never persisted, and no
verified claim concerns them, so they are not modelled here. -/
structure WorktreeEnv where
  name : String
  branch : String
  worktreePath : String
  sourceRepoPath : String
  configPattern : ConfigPattern
  portAllocations : List PortAllocation
  createdAt : GoTime
deriving Repr, DecidableEq

/-- ContainerInfo: runtime container data; only the fields the start
command reads are modelled. -/
structure ContainerInfo where
  containerID : String
  containerName : String := ""
deriving Repr, DecidableEq

/-! ## Label store (internal/docker/label.go) -/

/-- Label key worktree.managed-by. -/
def labelManagedBy : String := "worktree.managed-by"

/-- Label key worktree.name. -/
def labelName : String := "worktree.name"

/-- Label key worktree.branch. -/
def labelBranch : String := "worktree.branch"

/-- Label key worktree.worktree-path. -/
def labelWorktreePath : String := "worktree.worktree-path"

/-- Label key worktree.source-repo. -/
def labelSourceRepo : String := "worktree.source-repo"

/-- Key stem for per-port labels, worktree.original-port. followed by
the container port in decimal. -/
def labelOriginalPortKey : String := "worktree.original-port."

/-- Label key worktree.config-pattern. -/
def labelConfigPattern : String := "worktree.config-pattern"

/-- Label key worktree.created-at. -/
def labelCreatedAt : String := "worktree.created-at"

/-- ManagedByValue: constant value of the managed-by label. -/
def managedByValue : String := "worktree-container"

/-- Model of BuildPortLabel: the per-port label key for a container
port. -/
def BuildPortLabel (containerPort : Int) : String :=
  labelOriginalPortKey ++ itoa containerPort

/-- Model of BuildLabels: the seven base labels, then one entry per port
allocation mapping the container port key to the host port in decimal. -/
def BuildLabels (env : WorktreeEnv) : List (String × String) :=
  let base := [
    (labelManagedBy, managedByValue),
    (labelName, env.name),
    (labelBranch, env.branch),
    (labelWorktreePath, env.worktreePath),
    (labelSourceRepo, env.sourceRepoPath),
    (labelConfigPattern, env.configPattern.toStr),
    (labelCreatedAt, formatRFC3339 env.createdAt)]
  env.portAllocations.foldl
    (fun m pa => alistSet m (BuildPortLabel pa.containerPort) (itoa pa.hostPort)) base

/-- Model of ParsePortLabels: scan the label entries; every key carrying
the per-port stem contributes one allocation whose container port is
parsed from the key suffix and whose host port is parsed from the value;
the protocol defaults to tcp since it is not stored in labels. A
malformed key or value is an error. -/
def ParsePortLabels : List (String × String) → Except String (List PortAllocation)
  | [] => .ok []
  | (k, v) :: rest =>
    if strHasPre k labelOriginalPortKey then
      match atoi (strDropPre k labelOriginalPortKey), atoi v with
      | some containerPort, some hostPort =>
        (ParsePortLabels rest).map fun tail =>
          { serviceName := "", containerPort := containerPort,
            hostPort := hostPort, protocol := "tcp" } :: tail
      | none, _ => .error "invalid container port in label key"
      | some _, none => .error "invalid host port in label"
    else ParsePortLabels rest

/-- Model of ParseLabels: require the seven base labels, verify the
managed-by constant, parse the pattern enum and the RFC 3339 timestamp,
and extract the port allocations. -/
def ParseLabels (labels : List (String × String)) : Except String WorktreeEnv :=
  let requiredKeys := [labelManagedBy, labelName, labelBranch, labelWorktreePath,
    labelSourceRepo, labelConfigPattern, labelCreatedAt]
  let missing := requiredKeys.filter fun k => (alistGet labels k).isNone
  if missing ≠ [] then .error "missing required Docker labels"
  else if (alistGet labels labelManagedBy).getD "" ≠ managedByValue then
    .error "unexpected managed-by value"
  else
    match ParseConfigPattern ((alistGet labels labelConfigPattern).getD "") with
    | .error e => .error e
    | .ok pattern =>
      match parseRFC3339 ((alistGet labels labelCreatedAt).getD "") with
      | none => .error "invalid created-at label"
      | some createdAt =>
        match ParsePortLabels labels with
        | .error e => .error e
        | .ok ports =>
          .ok { name := (alistGet labels labelName).getD "",
                branch := (alistGet labels labelBranch).getD "",
                worktreePath := (alistGet labels labelWorktreePath).getD "",
                sourceRepoPath := (alistGet labels labelSourceRepo).getD "",
                configPattern := pattern,
                portAllocations := ports,
                createdAt := createdAt }

/-! ## Generic JSON values (the rewriter's map-based view) -/

/-- Generic JSON tree, the model of the map of string to interface
value that the rewriter operates on. JSON numbers are modelled as
integers; no claim observes a fractional value. -/
inductive JSONVal where
  | null
  | bool (b : Bool)
  | num (n : Int)
  | str (s : String)
  | arr (elems : List JSONVal)
  | obj (fields : List (String × JSONVal))
deriving Repr

/-! ## devcontainer configuration (internal/devcontainer/config.go) -/

/-- BuildConfig: the build object of devcontainer.json. -/
structure BuildConfig where
  dockerfile : String := ""
  context : String := ""
deriving Repr, DecidableEq

/-- RawDevContainer: the typed view of devcontainer.json. Only the
fields read by the functions under verification are modelled; the
dockerComposeFile field keeps its dynamic JSON type. -/
structure RawDevContainer where
  name : String := ""
  image : String := ""
  build : Option BuildConfig := none
  dockerComposeFile : Option JSONVal := none
  service : String := ""
  runServices : List String := []

/-- Model of DetectPattern: Compose patterns take precedence when
dockerComposeFile is present, splitting on the externally supplied
service count; then the build field selects dockerfile; otherwise
image. -/
def DetectPattern (raw : RawDevContainer) (composeServiceCount : Int) : ConfigPattern :=
  if raw.dockerComposeFile.isSome then
    if composeServiceCount ≥ 2 then .composeMulti else .composeSingle
  else if raw.build.isSome then .dockerfile
  else .image

/-- Model of GetComposeFiles: normalize dockerComposeFile to a list of
strings; a single string becomes a one-element list, an array keeps its
string elements, anything else yields the empty list. -/
def GetComposeFiles (raw : RawDevContainer) : List String :=
  match raw.dockerComposeFile with
  | none => []
  | some (.str s) => [s]
  | some (.arr elems) =>
    elems.filterMap fun e => match e with | .str s => some s | _ => none
  | some _ => []

/-- Model of countComposeServices from create.go: the length of
runServices when non-empty, else one when the primary service field is
set, else zero. The referenced Compose files are not read. -/
def countComposeServices (raw : RawDevContainer) : Int :=
  if raw.runServices.length > 0 then raw.runServices.length
  else if raw.service ≠ "" then 1 else 0

/-- The service count runCreate passes to DetectPattern (create.go step
6): countComposeServices when GetComposeFiles is non-empty, zero
otherwise. -/
def createComposeServiceCount (raw : RawDevContainer) : Int :=
  if (GetComposeFiles raw).length > 0 then countComposeServices raw else 0

/-- The pattern runCreate detects for a configuration. -/
def createDetectedPattern (raw : RawDevContainer) : ConfigPattern :=
  DetectPattern raw (createComposeServiceCount raw)

/-- Modelled from the spec: the spec states that the Compose service
count is obtained by reading the referenced Compose file(s), except that
the length of runServices is authoritative when the source config lists
it. The list of service names defined by the referenced Compose files is
not available to the program (no Compose YAML parser exists in the
sources), so it is taken here as an explicit argument. -/
def specComposeServiceCount (composeFileServices : List String) (runServices : List String) : Int :=
  if runServices.length > 0 then runServices.length else composeFileServices.length

/-! ## Non-Compose rewrite (internal/devcontainer rewrite code)

RewriteConfigMap models phase 2 of RewriteConfig: the transformation of
the parsed generic map. JSONC stripping and two-space serialization
(phases 1 and 3) relate text to the map and back and are not observed by
any claim. -/

/-- Insertion sort step for strings. -/
def insertSorted (x : String) : List String → List String
  | [] => [x]
  | y :: ys => if x ≤ y then x :: y :: ys else y :: insertSorted x ys

/-- Model of sort.Strings (ascending order). -/
def sortStrings (l : List String) : List String := l.foldr insertSorted []

/-- Model of applyRunArgsLabels: append, for every label key in sorted
order, the flag pair dash-dash-label and key=value to the runArgs array,
creating the array when absent or non-array. -/
def applyRunArgsLabels (m : List (String × JSONVal)) (labels : List (String × String)) : List (String × JSONVal) :=
  let existing := match alistGet m "runArgs" with
    | some (.arr a) => a
    | _ => []
  let keys := sortStrings (labels.map (·.1))
  let args := keys.foldl
    (fun acc k => acc ++ [JSONVal.str "--label", JSONVal.str (k ++ "=" ++ ((alistGet labels k).getD ""))])
    existing
  alistSet m "runArgs" (.arr args)

/-- The host:container mapping string for one allocation. -/
def portMapString (pa : PortAllocation) : String :=
  itoa pa.hostPort ++ ":" ++ itoa pa.containerPort

/-- Model of applyAppPortShift: delete appPort when there are no
allocations, otherwise replace it with the array of host:container
strings in allocation order. -/
def applyAppPortShift (m : List (String × JSONVal)) (portAllocations : List PortAllocation) : List (String × JSONVal) :=
  if portAllocations.isEmpty then alistErase m "appPort"
  else alistSet m "appPort" (.arr (portAllocations.map fun pa => .str (portMapString pa)))

/-- Model of applyPortsAttributesShift: when portsAttributes is an
object, re-key every entry whose key is an allocated container port to
the decimal host port, preserving unmatched entries. -/
def applyPortsAttributesShift (m : List (String × JSONVal)) (portAllocations : List PortAllocation) : List (String × JSONVal) :=
  match alistGet m "portsAttributes" with
  | some (.obj oldAttrs) =>
    let pm := portAllocations.foldl
      (fun acc pa => alistSet acc (itoa pa.containerPort) pa.hostPort)
      ([] : List (String × Int))
    let newAttrs := oldAttrs.foldl
      (fun acc kv =>
        match alistGet pm kv.1 with
        | some hostPort => alistSet acc (itoa hostPort) kv.2
        | none => alistSet acc kv.1 kv.2)
      ([] : List (String × JSONVal))
    alistSet m "portsAttributes" (.obj newAttrs)
  | _ => m

/-- Model of applyContainerEnv: ensure containerEnv exists and set
WORKTREE_NAME and WORKTREE_INDEX, preserving other entries. -/
def applyContainerEnv (m : List (String × JSONVal)) (envName : String) (worktreeIndex : Int) : List (String × JSONVal) :=
  let envMap := match alistGet m "containerEnv" with
    | some (.obj e) => e
    | _ => []
  let envMap := alistSet (alistSet envMap "WORKTREE_NAME" (.str envName))
    "WORKTREE_INDEX" (.str (itoa worktreeIndex))
  alistSet m "containerEnv" (.obj envMap)

/-- Model of RewriteConfig phase 2: set the name, then apply the
runArgs, appPort, portsAttributes and containerEnv rewrites in order. -/
def RewriteConfigMap (m : List (String × JSONVal)) (envName : String) (worktreeIndex : Int)
    (portAllocations : List PortAllocation) (labels : List (String × String)) : List (String × JSONVal) :=
  applyContainerEnv
    (applyPortsAttributesShift
      (applyAppPortShift
        (applyRunArgsLabels (alistSet m "name" (.str envName)) labels)
        portAllocations)
      portAllocations)
    envName worktreeIndex

/-! ## Worktree index step of the create command (create.go) -/

/-- Model of determineWorktreeIndex: the next index is the number of
existing managed environment groups plus one; above nine the function
returns an error. -/
def determineWorktreeIndex (groupCount : Nat) : Except String Int :=
  let index : Int := groupCount + 1
  if index > 9 then .error "maximum of 10 environments reached"
  else .ok index

/-- Model of runCreate lines 177 to 183: any error from
determineWorktreeIndex is logged and the index falls back to one; the
command then proceeds to port allocation with the resulting index. -/
def runCreateIndexStep (groupCount : Nat) : Int :=
  match determineWorktreeIndex groupCount with
  | .ok index => index
  | .error _ => 1

/-! ## Branch-name sanitisation and name validation -/

/-- Character class of the sanitizer's keep filter and of the name
regex's alphanumeric class. -/
def isAlnumChar (c : Char) : Bool :=
  ('a' ≤ c && c ≤ 'z') || ('A' ≤ c && c ≤ 'Z') || ('0' ≤ c && c ≤ '9')

/-- Characters the sanitizer keeps: alphanumerics and hyphens. -/
def isAllowedNameChar (c : Char) : Bool := isAlnumChar c || c == '-'

/-- Model of strings.Trim with the hyphen cutset: drop leading and
trailing hyphens. -/
def trimHyphens (l : List Char) : List Char :=
  ((l.dropWhile (· == '-')).reverse.dropWhile (· == '-')).reverse

/-- Model of sanitizeBranchName: replace slashes and underscores with
hyphens, keep only alphanumerics and hyphens, trim hyphens at both ends,
and fall back to the constant worktree when nothing remains. -/
def sanitizeBranchName (branch : String) : String :=
  let replaced := branch.data.map fun c => if c = '/' then '-' else c
  let replaced := replaced.map fun c => if c = '_' then '-' else c
  let filtered := replaced.filter isAllowedNameChar
  let trimmed := trimHyphens filtered
  if trimmed.isEmpty then "worktree" else ⟨trimmed⟩

/-- Matcher for the tail of the name regex after the first character: a
run of alphanumerics or hyphens ending in an alphanumeric. -/
def regexTail : List Char → Bool
  | [] => false
  | [c] => isAlnumChar c
  | c :: rest => isAllowedNameChar c && regexTail rest

/-- Model of nameRegex.MatchString for the anchored pattern: one
alphanumeric character, or an alphanumeric, then alphanumerics or
hyphens, ending in an alphanumeric. -/
def nameMatchesRegex (s : String) : Bool :=
  match s.data with
  | [] => false
  | [c] => isAlnumChar c
  | c :: rest => isAlnumChar c && regexTail rest

/-- Model of ValidateName: reject the empty string, then reject names
the regex does not match; the returned option carries the error. -/
def ValidateName (name : String) : Option String :=
  if name = "" then some "environment name must not be empty"
  else if !nameMatchesRegex name then some "invalid environment name"
  else none

/-! ## The start command (cli start code) -/

/-- Container-launching effects the start command can perform. -/
inductive StartAction where
  | composeUp (devcontainerDir : String) (projectName : String)
  | containerStart (containerID : String)
deriving Repr, DecidableEq

/-- Structured model of the categorized CLIError values the start
command produces; the conflicting port list that the Go code embeds in
the message text is carried explicitly. -/
inductive StartCLIError where
  | portConflict (ports : List Int)
  | composeUpFailed (envName : String)
  | containerStartFailed (containerName : String)
deriving Repr, DecidableEq

/-- Exit code carried by each error category: port conflicts are
port-allocation-class (exit code four), the launch failures are wrapped
as general errors in the Go sources of the start command. -/
def StartCLIError.code : StartCLIError → Int
  | .portConflict _ => 4
  | .composeUpFailed _ => 1
  | .containerStartFailed _ => 1

/-- The conflicting ports runStart computes before launching anything:
host ports of the environment's allocations whose OS-level probe fails. -/
def conflictingPorts (scanner : Scanner) (env : WorktreeEnv) : List Int :=
  (env.portAllocations.filter fun pa =>
    !(scanner.IsPortAvailable pa.hostPort pa.protocol)).map (·.hostPort)

/-- The per-container start loop for non-Compose patterns: attempts each
container in order, stopping at the first failure. The success of each
Docker API start call is an oracle. -/
def startContainersLoop (startOk : String → Bool) : List ContainerInfo → List StartAction × Option StartCLIError
  | [] => ([], none)
  | c :: rest =>
    if startOk c.containerID then
      let (actions, err) := startContainersLoop startOk rest
      (.containerStart c.containerID :: actions, err)
    else ([.containerStart c.containerID], some (.containerStartFailed c.containerName))

/-- Model of runStart after the environment has been found: verify every
allocated host port with the scanner; when at least one is taken, fail
with the port-conflict error carrying the list, performing no launch
action; otherwise launch per pattern, Compose up for Compose patterns
and per-container starts otherwise. The returned list is the trace of
launch actions performed. -/
def runStart (scanner : Scanner) (env : WorktreeEnv) (containers : List ContainerInfo)
    (composeUpOk : Bool) (startOk : String → Bool) : List StartAction × Option StartCLIError :=
  let conflicting := conflictingPorts scanner env
  if conflicting ≠ [] then ([], some (.portConflict conflicting))
  else if env.configPattern.IsCompose then
    let action := StartAction.composeUp (env.worktreePath ++ "/.devcontainer") env.name
    if composeUpOk then ([action], none)
    else ([action], some (.composeUpFailed env.name))
  else startContainersLoop startOk containers

/-! ## Concrete witness inputs -/

/-- A scanner whose OS probes always succeed. -/
def allFreeScanner : Scanner := ⟨fun _ => true, fun _ => true⟩

/-- An allocator over a free host with no known allocations. -/
def allocFree : Allocator := ⟨allFreeScanner, []⟩

/-- A scanner on which exactly TCP port 13000 is taken. -/
def skipScanner : Scanner := ⟨fun p => decide (p ≠ 13000), fun _ => true⟩

/-- An allocator over the skipScanner host with no known allocations. -/
def skipAllocator : Allocator := ⟨skipScanner, []⟩

/-- An allocator over a free host that already knows one allocation at
TCP 13000 from another environment. -/
def demoAllocator : Allocator :=
  ⟨allFreeScanner, [{ serviceName := "web", containerPort := 3000, hostPort := 13000, protocol := "tcp" }]⟩

/-- Two services both requesting container port 3000. -/
def portsDemo : List PortSpec :=
  [{ serviceName := "app", containerPort := 3000, protocol := "tcp" },
   { serviceName := "db", containerPort := 3000 }]

/-- The batch result for portsDemo on demoAllocator at index one. -/
def resDemo : List PortAllocation :=
  [{ serviceName := "app", containerPort := 3000, hostPort := 13001, protocol := "tcp" },
   { serviceName := "db", containerPort := 3000, hostPort := 13002, protocol := "tcp" }]

/-- A Compose configuration with a primary service, no runServices, and
a referenced Compose file (whose own contents the program never reads). -/
def rawComposeDemo : RawDevContainer :=
  { dockerComposeFile := some (.str "docker-compose.yml"), service := "app" }

/-- A Compose configuration listing two runServices. -/
def rawMultiDemo : RawDevContainer :=
  { dockerComposeFile := some (.str "docker-compose.yml"), service := "app",
    runServices := ["app", "db"] }

/-- An environment with one allocation at TCP 13000, used to exercise
the start command's port check. -/
def envStartDemo : WorktreeEnv :=
  { name := "env-1", branch := "feature/auth", worktreePath := "/tmp/wt",
    sourceRepoPath := "/tmp/repo", configPattern := .composeMulti,
    portAllocations :=
      [{ serviceName := "app", containerPort := 3000, hostPort := 13000, protocol := "tcp" }],
    createdAt := ⟨1000, 0⟩ }

/-- The containers of envStartDemo. -/
def startContainersDemo : List ContainerInfo := [⟨"c1", "env-1-app"⟩]

/-- A parsed devcontainer map with keys known and unknown to the
rewriter. -/
def demoConfigMap : List (String × JSONVal) :=
  [("name", .str "x"), ("image", .str "node:20"),
   ("appPort", .arr [.str "3000:3000"]), ("workspaceFolder", .str "/ws")]

/-- One allocation shifting container port 3000 to host port 13000. -/
def demoAllocs : List PortAllocation :=
  [{ serviceName := "app", containerPort := 3000, hostPort := 13000,
     protocol := "tcp", label := "App" }]

/-- A one-entry label map for the rewriter. -/
def demoLabels : List (String × String) := [("worktree.name", "env-1")]

/-- The scenario S5 environment: two allocations with distinct container
ports and a sub-second component on the creation time. -/
def envS5 : WorktreeEnv :=
  { name := "env-1", branch := "feature/x", worktreePath := "/w",
    sourceRepoPath := "/r", configPattern := .composeMulti,
    portAllocations :=
      [{ serviceName := "app", containerPort := 3000, hostPort := 13000, protocol := "tcp" },
       { serviceName := "db", containerPort := 5432, hostPort := 15432, protocol := "tcp" }],
    createdAt := ⟨1772272800, 123456789⟩ }

/-- An environment whose two allocations share container port 3000 with
different host ports. -/
def envDup : WorktreeEnv :=
  { name := "dup", branch := "b", worktreePath := "/w", sourceRepoPath := "/r",
    configPattern := .image,
    portAllocations :=
      [{ serviceName := "app", containerPort := 3000, hostPort := 13000, protocol := "tcp" },
       { serviceName := "db", containerPort := 3000, hostPort := 13001, protocol := "tcp" }],
    createdAt := ⟨1000, 0⟩ }

/-- The environment reconstructed from envDup's labels: the duplicate
container port collapses to a single port entry. -/
def envDupParsed : WorktreeEnv :=
  { name := "dup", branch := "b", worktreePath := "/w", sourceRepoPath := "/r",
    configPattern := .image,
    portAllocations :=
      [{ serviceName := "", containerPort := 3000, hostPort := 13001, protocol := "tcp" }],
    createdAt := ⟨1000, 0⟩ }

/-! ## Theorems -/

/-- A successful fuel-driven scan returns the least available value in
its window. -/
theorem scanRangeAux_eq_some (avail : Int → Bool) :
    ∀ (fuel : Nat) (lo p : Int), scanRangeAux avail lo fuel = some p →
      lo ≤ p ∧ p < lo + fuel ∧ avail p = true ∧
        ∀ q, lo ≤ q → q < p → avail q = false := by
  intro fuel
  induction fuel with
  | zero => intro lo p h; simp [scanRangeAux] at h
  | succ n ih =>
    intro lo p h
    simp only [scanRangeAux] at h
    by_cases hlo : avail lo = true
    · simp [hlo] at h
      subst h
      refine ⟨le_refl _, by omega, hlo, ?_⟩
      intro q hq1 hq2; omega
    · simp [hlo] at h
      obtain ⟨h1, h2, h3, h4⟩ := ih (lo + 1) p h
      refine ⟨by omega, by push_cast at h2 ⊢; omega, h3, ?_⟩
      intro q hq1 hq2
      rcases eq_or_lt_of_le hq1 with rfl | hq
      · simpa using hlo
      · exact h4 q (by omega) hq2

/-- A successful range scan returns the least available value in the
inclusive range. -/
theorem scanRange_eq_some {avail : Int → Bool} {lo hi p : Int}
    (h : scanRange avail lo hi = some p) :
    lo ≤ p ∧ p ≤ hi ∧ avail p = true ∧
      ∀ q, lo ≤ q → q < p → avail q = false := by
  obtain ⟨h1, h2, h3, h4⟩ := scanRangeAux_eq_some avail _ lo p h
  refine ⟨h1, ?_, h3, h4⟩
  have hcast : (((hi + 1 - lo).toNat : Int)) ≤ max (hi + 1 - lo) 0 := by
    rw [Int.toNat_eq_max]
  omega

/-- Availability through the scanner implies the protocol is tcp or
udp: any other protocol is unavailable by the fail-safe default. -/
theorem isPortAvailable_protocol {s : Scanner} {p : Int} {proto : String}
    (h : s.IsPortAvailable p proto = true) : proto = "tcp" ∨ proto = "udp" := by
  by_cases h1 : proto = "tcp"
  · exact Or.inl h1
  by_cases h2 : proto = "udp"
  · exact Or.inr h2
  simp [Scanner.IsPortAvailable, h1, h2] at h

/-- Unfolding of the allocator's two-layer availability check: no known
allocation conflicts on (hostPort, protocol) and the OS probe succeeds. -/
theorem availableForAllocation_spec {a : Allocator} {p : Int} {proto : String}
    (h : a.isPortAvailableForAllocation p proto = true) :
    (∀ e ∈ a.existingAllocations, ¬(e.hostPort = p ∧ e.protocol = proto)) ∧
      a.scanner.IsPortAvailable p proto = true := by
  unfold Allocator.isPortAvailableForAllocation at h
  rw [Bool.and_eq_true] at h
  obtain ⟨h1, h2⟩ := h
  refine ⟨?_, h2⟩
  intro e he hc
  have he' := List.all_eq_true.mp h1 e he
  simp [hc.1, hc.2] at he'

/-- Every successful single-port allocation preserves the service name
and container port, defaults the protocol, stays at or below 65535, and
returns a port that passes the two-layer availability check in the state
the allocator was called with. -/
theorem AllocatePort_ok_spec {a : Allocator} {orig idx : Int} {svc proto : String}
    {alloc : PortAllocation}
    (h : a.AllocatePort orig idx svc proto = .ok alloc) :
    alloc.serviceName = svc ∧ alloc.containerPort = orig ∧ alloc.label = "" ∧
      alloc.protocol = defaultProtocol proto ∧
      alloc.hostPort ≤ 65535 ∧
      a.isPortAvailableForAllocation alloc.hostPort alloc.protocol = true := by
  simp only [Allocator.AllocatePort, Allocator.findAvailablePortExcludingExisting] at h
  split at h
  · simp at h
  split at h
  · -- overflow branch: the dynamic-range fallback was used
    split at h
    · simp at h
    next p hp =>
      rw [Except.ok.injEq] at h
      subst h
      obtain ⟨_, h2, h3, _⟩ := scanRange_eq_some hp
      exact ⟨rfl, rfl, rfl, rfl, by simpa [dynamicRangeEnd] using h2, h3⟩
  split at h
  · -- candidate unavailable: block scan, then fallback
    split at h
    next c hc =>
      rw [Except.ok.injEq] at h
      subst h
      obtain ⟨_, h2, h3, _⟩ := scanRange_eq_some hc
      refine ⟨rfl, rfl, rfl, rfl, ?_, h3⟩
      have hmin := h2.trans (min_le_right (shiftCandidate orig idx + portShiftMultiplier - 1) maxPort)
      simpa [maxPort] using hmin
    next hnone =>
      split at h
      · simp at h
      next p hp =>
        rw [Except.ok.injEq] at h
        subst h
        obtain ⟨_, h2, h3, _⟩ := scanRange_eq_some hp
        exact ⟨rfl, rfl, rfl, rfl, by simpa [dynamicRangeEnd] using h2, h3⟩
  · -- candidate available and in range
    next hle hav =>
      rw [Except.ok.injEq] at h
      subst h
      simp only [Bool.not_eq_true', Bool.not_eq_false] at hav
      refine ⟨rfl, rfl, rfl, rfl, ?_, hav⟩
      show shiftCandidate orig idx ≤ 65535
      simp only [maxPort] at hle
      omega

/-- Double protocol defaulting is idempotent. -/
theorem defaultProtocol_idem (p : String) :
    defaultProtocol (defaultProtocol p) = defaultProtocol p := by
  unfold defaultProtocol
  by_cases h : p = "" <;> simp [h]

/-- C3: for every port allocation with a positive worktree index (at
most the design limit nine), a shifted port not exceeding 65535 and no
conflict, the allocated host port equals original plus index times
10000; and at worktree index zero with no conflict, the allocated host
port equals the original port. -/
theorem AllocatePort_shift_formula (a : Allocator) (orig idx : Int) (svc proto : String) :
    (0 < idx → idx ≤ 9 → orig + idx * 10000 ≤ 65535 →
      a.isPortAvailableForAllocation (orig + idx * 10000) (defaultProtocol proto) = true →
      a.AllocatePort orig idx svc proto =
        .ok { serviceName := svc, containerPort := orig,
              hostPort := orig + idx * 10000, protocol := defaultProtocol proto }) ∧
    (orig ≤ 65535 →
      a.isPortAvailableForAllocation orig (defaultProtocol proto) = true →
      a.AllocatePort orig 0 svc proto =
        .ok { serviceName := svc, containerPort := orig,
              hostPort := orig, protocol := defaultProtocol proto }) := by
  constructor
  · intro h1 h2 h3 h4
    have hne : ¬ idx = 0 := by omega
    have hcand : shiftCandidate orig idx = orig + idx * 10000 := by
      simp [shiftCandidate, portShiftMultiplier, hne]
    simp only [Allocator.AllocatePort, maxWorktreeIndex, maxPort]
    rw [if_neg (by omega), hcand, if_neg (by omega), h4]
    simp
  · intro h1 h4
    have hcand : shiftCandidate orig 0 = orig := by simp [shiftCandidate]
    simp only [Allocator.AllocatePort, maxWorktreeIndex, maxPort]
    rw [if_neg (by omega), hcand, if_neg (by omega), h4]
    simp

/-- Witness for C3 at concrete inputs: with all ports free, container
port 3000 at index one lands on 13000, and container port 5432 at index
zero (with the protocol defaulted from empty) stays at 5432. -/
theorem AllocatePort_shift_formula_witness :
    allocFree.AllocatePort 3000 1 "app" "tcp" =
      .ok { serviceName := "app", containerPort := 3000, hostPort := 13000, protocol := "tcp" } ∧
    allocFree.AllocatePort 5432 0 "db" "" =
      .ok { serviceName := "db", containerPort := 5432, hostPort := 5432, protocol := "tcp" } := by
  constructor
  · have h := (AllocatePort_shift_formula allocFree 3000 1 "app" "tcp").1
      (by norm_num) (by norm_num) (by norm_num) (by decide)
    rw [h]
    norm_num [defaultProtocol]
  · have h := (AllocatePort_shift_formula allocFree 5432 0 "db" "").2
      (by norm_num) (by decide)
    rw [h]
    norm_num [defaultProtocol]

/-- C2: when the shift candidate is in range but unavailable, and the
upward block scan finds a port, AllocatePort returns exactly the scan's
result: the first available port strictly after the candidate within the
candidate's 10000-wide block capped at 65535; in particular no port past
the end of that block is returned by the block scan. -/
theorem AllocatePort_block_scan (a : Allocator) (orig idx : Int) (svc proto : String) (p : Int)
    (hidx : 0 ≤ idx ∧ idx ≤ 9)
    (hle : shiftCandidate orig idx ≤ 65535)
    (hna : a.isPortAvailableForAllocation (shiftCandidate orig idx) (defaultProtocol proto) = false)
    (hscan : scanRange (fun c => a.isPortAvailableForAllocation c (defaultProtocol proto))
        (shiftCandidate orig idx + 1) (min (shiftCandidate orig idx + 10000 - 1) 65535) = some p) :
    a.AllocatePort orig idx svc proto =
      .ok { serviceName := svc, containerPort := orig, hostPort := p,
            protocol := defaultProtocol proto } ∧
    shiftCandidate orig idx + 1 ≤ p ∧
    p ≤ min (shiftCandidate orig idx + 10000 - 1) 65535 ∧
    a.isPortAvailableForAllocation p (defaultProtocol proto) = true ∧
    ∀ q, shiftCandidate orig idx + 1 ≤ q → q < p →
      a.isPortAvailableForAllocation q (defaultProtocol proto) = false := by
  obtain ⟨hlo, hhi, hav, hleast⟩ := scanRange_eq_some hscan
  refine ⟨?_, hlo, hhi, hav, hleast⟩
  simp only [Allocator.AllocatePort, maxWorktreeIndex, maxPort, portShiftMultiplier]
  rw [if_neg (by omega), if_neg (by omega), hna]
  simp only [Bool.not_false, if_true]
  rw [hscan]

/-- Witness for C2 at concrete inputs: on a host where only TCP 13000 is
taken, container port 3000 at index one skips to 13001, which lies
within the block. -/
theorem AllocatePort_block_scan_witness :
    skipAllocator.AllocatePort 3000 1 "app" "tcp" =
      .ok { serviceName := "app", containerPort := 3000, hostPort := 13001, protocol := "tcp" } ∧
    shiftCandidate 3000 1 + 1 ≤ (13001 : Int) ∧
    (13001 : Int) ≤ min (shiftCandidate 3000 1 + 10000 - 1) 65535 := by
  have h := AllocatePort_block_scan skipAllocator 3000 1 "app" "tcp" 13001
    ⟨by norm_num, by norm_num⟩ (by decide) (by decide) (by decide)
  refine ⟨?_, h.2.1, h.2.2.1⟩
  rw [h.1]
  norm_num [defaultProtocol]

/-- Main batch-allocation invariant, by induction along the batch: every
successful batch result corresponds field-wise to its specs (service
name and container port preserved, label copied, protocol defaulted to
tcp or udp, host port at most 65535), has pairwise-distinct
(hostPort, protocol) pairs, and conflicts with no allocation already
known to the allocator. -/
theorem AllocatePorts_ok_induction :
    ∀ (ports : List PortSpec) (a : Allocator) (idx : Int) (res : List PortAllocation),
      a.AllocatePorts ports idx = .ok res →
      List.Forall₂ (fun s r => r.serviceName = s.serviceName ∧
        r.containerPort = s.containerPort ∧ r.label = s.label ∧
        (r.protocol = "tcp" ∨ r.protocol = "udp") ∧ r.hostPort ≤ 65535) ports res ∧
      List.Pairwise (fun x y => ¬(x.hostPort = y.hostPort ∧ x.protocol = y.protocol)) res ∧
      (∀ r ∈ res, ∀ e ∈ a.existingAllocations,
        ¬(r.hostPort = e.hostPort ∧ r.protocol = e.protocol)) := by
  intro ports
  induction ports with
  | nil =>
    intro a idx res h
    simp only [Allocator.AllocatePorts] at h
    rw [Except.ok.injEq] at h
    subst h
    exact ⟨List.Forall₂.nil, List.Pairwise.nil, by simp⟩
  | cons ps rest ih =>
    intro a idx res h
    simp only [Allocator.AllocatePorts] at h
    split at h
    · simp at h
    next alloc halloc =>
      split at h
      · simp at h
      next tail htail =>
        rw [Except.ok.injEq] at h
        subst h
        obtain ⟨hsvc, hcp, hlab, hproto, hle, hav⟩ := AllocatePort_ok_spec halloc
        obtain ⟨hnoconf, hscan⟩ := availableForAllocation_spec hav
        obtain ⟨ihf, ihp, ihc⟩ := ih _ idx tail htail
        have hprotv : alloc.protocol = "tcp" ∨ alloc.protocol = "udp" :=
          isPortAvailable_protocol hscan
        refine ⟨?_, ?_, ?_⟩
        · refine List.Forall₂.cons ⟨hsvc, hcp, rfl, hprotv, hle⟩ ihf
        · refine List.pairwise_cons.mpr ⟨?_, ihp⟩
          intro r hr hconf
          have := ihc r hr { alloc with label := ps.label }
            (by simp)
          exact this ⟨hconf.1.symm, hconf.2.symm⟩
        · intro r hr e he
          rcases List.mem_cons.mp hr with rfl | hrt
          · intro hconf
            exact hnoconf e he ⟨hconf.1.symm, hconf.2.symm⟩
          · exact ihc r hrt e (by simp [he])

/-- C4: every successful batch allocation yields per-protocol host-port
uniqueness: no two distinct allocations of the result share a
(hostPort, protocol) pair, and no allocation of the result shares a
(hostPort, protocol) pair with any pre-existing allocation supplied to
the allocator. -/
theorem AllocatePorts_unique_host_ports (a : Allocator) (ports : List PortSpec) (idx : Int)
    (res : List PortAllocation) (h : a.AllocatePorts ports idx = .ok res) :
    List.Pairwise (fun x y => ¬(x.hostPort = y.hostPort ∧ x.protocol = y.protocol)) res ∧
    ∀ r ∈ res, ∀ e ∈ a.existingAllocations,
      ¬(r.hostPort = e.hostPort ∧ r.protocol = e.protocol) :=
  ⟨(AllocatePorts_ok_induction ports a idx res h).2.1,
   (AllocatePorts_ok_induction ports a idx res h).2.2⟩

/-- Witness for C4 at concrete inputs: two services both asking for
container port 3000 at index one, with 13000 already taken by another
environment, land on 13001 and 13002 with no conflicts. -/
theorem AllocatePorts_unique_host_ports_witness :
    demoAllocator.AllocatePorts portsDemo 1 = .ok resDemo ∧
    (List.Pairwise (fun x y => ¬(x.hostPort = y.hostPort ∧ x.protocol = y.protocol)) resDemo ∧
     ∀ r ∈ resDemo, ∀ e ∈ demoAllocator.existingAllocations,
       ¬(r.hostPort = e.hostPort ∧ r.protocol = e.protocol)) := by
  have hrun : demoAllocator.AllocatePorts portsDemo 1 = .ok resDemo := by rfl
  exact ⟨hrun, AllocatePorts_unique_host_ports demoAllocator portsDemo 1 resDemo hrun⟩

/-- C5 counterexample: the claim's lower bound of 1024 on allocated host
ports fails on the code. At worktree index zero with container port 80
free on the host, the batch succeeds and allocates host port 80, which
is below 1024; no lower bound is enforced anywhere in the allocator. -/
theorem AllocatePorts_low_port_counterexample :
    allocFree.AllocatePorts [{ serviceName := "app", containerPort := 80, protocol := "tcp" }] 0 =
      .ok [{ serviceName := "app", containerPort := 80, hostPort := 80, protocol := "tcp" }] ∧
    ¬((1024 : Int) ≤ 80) := by
  constructor
  · rfl
  · norm_num

/-- C5 amended: for every PortSpec in a batch for which allocation
succeeds, the corresponding result preserves the service name and the
container port, carries protocol tcp or udp, and has host port at most
65535; the lower bound of 1024 is not enforced (at index zero an
original port below 1024 is allocated unchanged). -/
theorem AllocatePorts_result_fields (a : Allocator) (ports : List PortSpec) (idx : Int)
    (res : List PortAllocation) (h : a.AllocatePorts ports idx = .ok res) :
    List.Forall₂ (fun s r => r.serviceName = s.serviceName ∧
      r.containerPort = s.containerPort ∧
      (r.protocol = "tcp" ∨ r.protocol = "udp") ∧ r.hostPort ≤ 65535) ports res :=
  ((AllocatePorts_ok_induction ports a idx res h).1).imp
    (fun _ _ hsr => ⟨hsr.1, hsr.2.1, hsr.2.2.2.1, hsr.2.2.2.2⟩)

/-- Witness for the amended C5 at concrete inputs. -/
theorem AllocatePorts_result_fields_witness :
    demoAllocator.AllocatePorts portsDemo 1 = .ok resDemo ∧
    List.Forall₂ (fun s r => r.serviceName = s.serviceName ∧
      r.containerPort = s.containerPort ∧
      (r.protocol = "tcp" ∨ r.protocol = "udp") ∧ r.hostPort ≤ 65535) portsDemo resDemo := by
  have hrun : demoAllocator.AllocatePorts portsDemo 1 = .ok resDemo := by rfl
  exact ⟨hrun, AllocatePorts_result_fields demoAllocator portsDemo 1 resDemo hrun⟩

/-- C1: with nine known environment groups, determineWorktreeIndex
computes index ten, above the cap, and returns an error; but the create
command's index step (runCreate lines 177 to 183) swallows that error
and proceeds to port allocation with worktree index one, so create does
not fail with a port-allocation-class error as the claim states. -/
theorem create_index_cap_not_enforced :
    determineWorktreeIndex 9 = .error "maximum of 10 environments reached" ∧
    runCreateIndexStep 9 = 1 ∧
    determineWorktreeIndex 8 = .ok 9 ∧
    runCreateIndexStep 8 = 9 :=
  ⟨rfl, rfl, rfl, rfl⟩

/-- Elements of the trimmed list come from the original list, and the
first and last characters of the trimmed list are not hyphens. -/
theorem trimHyphens_spec (l : List Char) :
    (∀ x ∈ trimHyphens l, x ∈ l) ∧
    (∀ c, (trimHyphens l).head? = some c → (c == '-') = false) ∧
    (∀ c, (trimHyphens l).getLast? = some c → (c == '-') = false) := by
  unfold trimHyphens
  refine ⟨?_, ?_, ?_⟩
  · intro x hx
    have h1 := List.mem_reverse.mp hx
    have h2 := List.dropWhile_subset (l := (l.dropWhile (· == '-')).reverse) (· == '-') h1
    have h3 := List.mem_reverse.mp h2
    exact List.dropWhile_subset (· == '-') h3
  · intro c hc
    rw [List.head?_reverse] at hc
    obtain ⟨t, ht⟩ := List.dropWhile_suffix (l := (l.dropWhile (· == '-')).reverse) (· == '-')
    have hrev : ((l.dropWhile (· == '-')).reverse).getLast? = some c := by
      rw [← ht, List.getLast?_append, hc]
      rfl
    rw [List.getLast?_reverse] at hrev
    have hmatch := List.head?_dropWhile_not (· == '-') l
    rw [hrev] at hmatch
    exact hmatch
  · intro c hc
    rw [List.getLast?_reverse] at hc
    have hmatch := List.head?_dropWhile_not (· == '-') ((l.dropWhile (· == '-')).reverse)
    rw [hc] at hmatch
    exact hmatch

/-- A hyphen-free-at-the-end run of allowed characters satisfies the
regex tail matcher. -/
theorem regexTail_of_allowed :
    ∀ (l : List Char) (c : Char), l.getLast? = some c → isAlnumChar c = true →
      (∀ x ∈ l, isAllowedNameChar x = true) → regexTail l = true := by
  intro l
  induction l with
  | nil => intro c hc; simp at hc
  | cons d t ih =>
    intro c hc halnum hall
    cases t with
    | nil =>
      simp only [List.getLast?_singleton, Option.some.injEq] at hc
      subst hc
      simpa [regexTail] using halnum
    | cons e u =>
      rw [List.getLast?_cons_cons] at hc
      have hd := hall d (by simp)
      have ht := ih c hc halnum (fun x hx => hall x (by simp [hx]))
      simp [regexTail, hd, ht]

/-- An allowed character that is not a hyphen is alphanumeric. -/
theorem isAlnum_of_allowed_not_hyphen {c : Char}
    (hall : isAllowedNameChar c = true) (hne : (c == '-') = false) :
    isAlnumChar c = true := by
  unfold isAllowedNameChar at hall
  rcases Bool.or_eq_true_iff.mp hall with h | h
  · exact h
  · rw [h] at hne; cases hne

/-- Core of the sanitizer guarantee: starting from any list of allowed
characters, the trim-and-fallback step yields a non-empty name accepted
by ValidateName. -/
theorem sanitized_valid_of_filtered (filtered : List Char)
    (hf : ∀ x ∈ filtered, isAllowedNameChar x = true) :
    (if (trimHyphens filtered).isEmpty = true then ("worktree" : String)
      else ⟨trimHyphens filtered⟩) ≠ "" ∧
    ValidateName (if (trimHyphens filtered).isEmpty = true then "worktree"
      else ⟨trimHyphens filtered⟩) = none := by
  by_cases hcond : (trimHyphens filtered).isEmpty = true
  · rw [if_pos hcond]
    exact ⟨by decide, by decide⟩
  · rw [if_neg hcond]
    obtain ⟨hsub, hhead, hlast⟩ := trimHyphens_spec filtered
    have hall : ∀ x ∈ trimHyphens filtered, isAllowedNameChar x = true := by
      intro x hx
      exact hf x (hsub x hx)
    have hne' : trimHyphens filtered ≠ [] := by
      intro hnil
      exact hcond (by simp [hnil])
    have hnonempty : (⟨trimHyphens filtered⟩ : String) ≠ "" := by
      intro h
      apply hne'
      simpa using congrArg String.data h
    refine ⟨hnonempty, ?_⟩
    have hmatch : nameMatchesRegex ⟨trimHyphens filtered⟩ = true := by
      unfold nameMatchesRegex
      cases htl : trimHyphens filtered with
      | nil => exact absurd htl hne'
      | cons c rest =>
        have hc : isAlnumChar c = true := by
          refine isAlnum_of_allowed_not_hyphen (hall c (by rw [htl]; simp)) ?_
          exact hhead c (by rw [htl]; rfl)
        cases rest with
        | nil => simpa using hc
        | cons d u =>
          obtain ⟨lastc, hlastc⟩ : ∃ x, (d :: u).getLast? = some x := by
            cases hgl : (d :: u).getLast? with
            | none => simp [List.getLast?_eq_none_iff] at hgl
            | some x => exact ⟨x, rfl⟩
          have hlastmem : lastc ∈ trimHyphens filtered := by
            rw [htl]
            exact List.mem_cons_of_mem c (List.mem_of_getLast?_eq_some hlastc)
          have hlastc' : (trimHyphens filtered).getLast? = some lastc := by
            rw [htl, List.getLast?_cons_cons]
            exact hlastc
          have hlastalnum : isAlnumChar lastc = true :=
            isAlnum_of_allowed_not_hyphen (hall lastc hlastmem) (hlast lastc hlastc')
          have htail : regexTail (d :: u) = true :=
            regexTail_of_allowed (d :: u) lastc hlastc hlastalnum
              (fun x hx => hall x (by rw [htl]; exact List.mem_cons_of_mem c hx))
          simp [hc, htail]
    unfold ValidateName
    rw [if_neg hnonempty, hmatch]
    simp

/-- C10: for every input branch name, the sanitized environment name is
non-empty and passes ValidateName, so create name validation cannot
fail when no explicit name flag is given. -/
theorem sanitizeBranchName_always_valid (branch : String) :
    sanitizeBranchName branch ≠ "" ∧ ValidateName (sanitizeBranchName branch) = none :=
  sanitized_valid_of_filtered _ (fun _ hx => List.of_mem_filter hx)

/-- C8 counterexample: the service count used for pattern detection is
not obtained by reading the referenced Compose file. For a configuration
referencing a Compose file that defines three services (app, db, cache)
but listing no runServices, the code counts one service (from the
primary service field) and detects compose-single, while the claim's
count of three would demand compose-multi. -/
theorem composeServiceCount_not_from_files :
    countComposeServices rawComposeDemo = 1 ∧
    specComposeServiceCount ["app", "db", "cache"] rawComposeDemo.runServices = 3 ∧
    createDetectedPattern rawComposeDemo = .composeSingle ∧
    DetectPattern rawComposeDemo 3 = .composeMulti :=
  ⟨rfl, rfl, rfl, rfl⟩

/-- C8 amended: with dockerComposeFile present, the create command's
service count comes from the devcontainer configuration itself, never
from the referenced Compose files: when runServices is non-empty its
length is the count and at least two yields compose-multi, otherwise
compose-single; when runServices is empty the detected pattern is
always compose-single regardless of the Compose file contents. -/
theorem detectPattern_service_count (raw : RawDevContainer)
    (h : raw.dockerComposeFile.isSome = true) :
    ((GetComposeFiles raw).length > 0 → raw.runServices ≠ [] →
      createDetectedPattern raw =
        (if 2 ≤ raw.runServices.length then ConfigPattern.composeMulti
          else ConfigPattern.composeSingle)) ∧
    (raw.runServices = [] → createDetectedPattern raw = .composeSingle) := by
  constructor
  · intro hfiles hrun
    have hlen : raw.runServices.length > 0 := List.length_pos.mpr hrun
    unfold createDetectedPattern createComposeServiceCount countComposeServices DetectPattern
    rw [if_pos hfiles, if_pos hlen, if_pos h]
    by_cases h2 : 2 ≤ raw.runServices.length
    · rw [if_pos (by exact_mod_cast h2), if_pos h2]
    · rw [if_neg (by exact_mod_cast h2), if_neg h2]
  · intro hrun
    have hcount : createComposeServiceCount raw ≤ 1 := by
      unfold createComposeServiceCount countComposeServices
      rw [hrun]
      split
      · simp only [List.length_nil, gt_iff_lt, Nat.lt_irrefl, if_false, Nat.cast_zero]
        split <;> norm_num
      · norm_num
    unfold createDetectedPattern DetectPattern
    rw [if_pos h, if_neg (by omega)]

/-- Witness for the amended C8 at concrete inputs: two runServices give
compose-multi; no runServices gives compose-single. -/
theorem detectPattern_service_count_witness :
    createDetectedPattern rawMultiDemo = .composeMulti ∧
    createDetectedPattern rawComposeDemo = .composeSingle := by
  constructor
  · have h := (detectPattern_service_count rawMultiDemo rfl).1 (by decide) (by decide)
    rw [h]
    decide
  · exact (detectPattern_service_count rawComposeDemo rfl).2 rfl

/-- C9: the start command checks OS-level availability of every
allocated host port first: when at least one port is taken it returns
the port-allocation-class error (exit code four) carrying exactly the
conflicting port list and performs no launch action; launch actions
occur only when every port is free. -/
theorem runStart_ports_before_launch (scanner : Scanner) (env : WorktreeEnv)
    (containers : List ContainerInfo) (composeUpOk : Bool) (startOk : String → Bool) :
    (conflictingPorts scanner env ≠ [] →
      runStart scanner env containers composeUpOk startOk =
        ([], some (.portConflict (conflictingPorts scanner env))) ∧
      (StartCLIError.portConflict (conflictingPorts scanner env)).code = 4) ∧
    ((runStart scanner env containers composeUpOk startOk).1 ≠ [] →
      conflictingPorts scanner env = []) := by
  constructor
  · intro h
    refine ⟨?_, rfl⟩
    unfold runStart
    rw [if_pos h]
  · intro h
    by_cases hc : conflictingPorts scanner env = []
    · exact hc
    · exfalso
      apply h
      unfold runStart
      rw [if_pos hc]

/-- Witness for C9 at concrete inputs: with TCP 13000 taken on the host,
starting envStartDemo fails port-class with the conflicting list
[13000] and performs no launch action. -/
theorem runStart_ports_before_launch_witness :
    runStart skipScanner envStartDemo startContainersDemo true (fun _ => true) =
      ([], some (.portConflict [13000])) ∧
    (StartCLIError.portConflict [13000]).code = 4 := by
  have hcp : conflictingPorts skipScanner envStartDemo = [13000] := by rfl
  have h := (runStart_ports_before_launch skipScanner envStartDemo startContainersDemo
    true (fun _ => true)).1 (by rw [hcp]; decide)
  rw [hcp] at h
  exact h

/-- Lookup after setting the same key returns the new value. -/
theorem alistGet_set_self {α : Type} (m : List (String × α)) (k : String) (v : α) :
    alistGet (alistSet m k v) k = some v := by
  induction m with
  | nil => simp [alistSet, alistGet]
  | cons kv rest ih =>
    obtain ⟨k', v'⟩ := kv
    by_cases h : k' = k
    · simp [alistSet, alistGet, h]
    · simp [alistSet, alistGet, h, ih]

/-- Lookup after setting a different key is unchanged. -/
theorem alistGet_set_ne {α : Type} (m : List (String × α)) (k : String) (v : α)
    (k' : String) (h : k' ≠ k) :
    alistGet (alistSet m k v) k' = alistGet m k' := by
  induction m with
  | nil =>
    simp only [alistSet, alistGet]
    rw [if_neg (Ne.symm h)]
  | cons kv rest ih =>
    obtain ⟨k0, v0⟩ := kv
    simp only [alistSet]
    by_cases h0 : k0 = k
    · rw [if_pos h0]
      simp only [alistGet]
      rw [if_neg (Ne.symm h), if_neg (by rw [h0]; exact Ne.symm h)]
    · rw [if_neg h0]
      simp only [alistGet]
      by_cases h1 : k0 = k'
      · rw [if_pos h1, if_pos h1]
      · rw [if_neg h1, if_neg h1]
        exact ih

/-- Lookup after erasing the same key returns nothing. -/
theorem alistGet_erase_self {α : Type} (m : List (String × α)) (k : String) :
    alistGet (alistErase m k) k = none := by
  induction m with
  | nil => rfl
  | cons kv rest ih =>
    obtain ⟨k0, v0⟩ := kv
    simp only [alistErase]
    by_cases h0 : k0 = k
    · rw [if_pos h0]
      exact ih
    · rw [if_neg h0]
      simp only [alistGet]
      rw [if_neg h0]
      exact ih

/-- Lookup after erasing a different key is unchanged. -/
theorem alistGet_erase_ne {α : Type} (m : List (String × α)) (k k' : String) (h : k' ≠ k) :
    alistGet (alistErase m k) k' = alistGet m k' := by
  induction m with
  | nil => rfl
  | cons kv rest ih =>
    obtain ⟨k0, v0⟩ := kv
    simp only [alistErase]
    by_cases h0 : k0 = k
    · rw [if_pos h0, ih]
      simp only [alistGet]
      rw [if_neg (by rw [h0]; exact Ne.symm h)]
    · rw [if_neg h0]
      simp only [alistGet]
      by_cases h1 : k0 = k'
      · rw [if_pos h1, if_pos h1]
      · rw [if_neg h1, if_neg h1]
        exact ih

/-- The runArgs rewrite touches no other key. -/
theorem applyRunArgsLabels_get_ne (m : List (String × JSONVal))
    (labels : List (String × String)) (k : String) (h : k ≠ "runArgs") :
    alistGet (applyRunArgsLabels m labels) k = alistGet m k :=
  alistGet_set_ne m "runArgs" _ k h

/-- The appPort rewrite touches no other key. -/
theorem applyAppPortShift_get_ne (m : List (String × JSONVal))
    (allocs : List PortAllocation) (k : String) (h : k ≠ "appPort") :
    alistGet (applyAppPortShift m allocs) k = alistGet m k := by
  unfold applyAppPortShift
  split
  · exact alistGet_erase_ne m "appPort" k h
  · exact alistGet_set_ne m "appPort" _ k h

/-- The portsAttributes rewrite touches no other key. -/
theorem applyPortsAttributesShift_get_ne (m : List (String × JSONVal))
    (allocs : List PortAllocation) (k : String) (h : k ≠ "portsAttributes") :
    alistGet (applyPortsAttributesShift m allocs) k = alistGet m k := by
  unfold applyPortsAttributesShift
  split
  · exact alistGet_set_ne m "portsAttributes" _ k h
  · rfl

/-- The containerEnv rewrite touches no other key. -/
theorem applyContainerEnv_get_ne (m : List (String × JSONVal))
    (envName : String) (idx : Int) (k : String) (h : k ≠ "containerEnv") :
    alistGet (applyContainerEnv m envName idx) k = alistGet m k :=
  alistGet_set_ne m "containerEnv" _ k h

/-- C7: for every parsed devcontainer map, environment name, index,
allocation list and label map, the non-Compose rewrite removes appPort
entirely when the allocation list is empty, otherwise replaces it with
the host:container strings in allocation order; and every key other
than the five the rewriter owns (name, runArgs, appPort,
portsAttributes, containerEnv) keeps its original value. -/
theorem RewriteConfigMap_spec (m : List (String × JSONVal)) (envName : String) (idx : Int)
    (allocs : List PortAllocation) (labels : List (String × String)) :
    (allocs = [] → alistGet (RewriteConfigMap m envName idx allocs labels) "appPort" = none) ∧
    (allocs ≠ [] → alistGet (RewriteConfigMap m envName idx allocs labels) "appPort" =
      some (.arr (allocs.map fun pa => .str (portMapString pa)))) ∧
    (∀ k, k ∉ ["name", "runArgs", "appPort", "portsAttributes", "containerEnv"] →
      alistGet (RewriteConfigMap m envName idx allocs labels) k = alistGet m k) := by
  refine ⟨?_, ?_, ?_⟩
  · intro hnil
    unfold RewriteConfigMap
    rw [applyContainerEnv_get_ne _ _ _ _ (by decide),
      applyPortsAttributesShift_get_ne _ _ _ (by decide)]
    unfold applyAppPortShift
    rw [if_pos (by simp [hnil])]
    exact alistGet_erase_self _ "appPort"
  · intro hne
    unfold RewriteConfigMap
    rw [applyContainerEnv_get_ne _ _ _ _ (by decide),
      applyPortsAttributesShift_get_ne _ _ _ (by decide)]
    unfold applyAppPortShift
    rw [if_neg (by simp [hne])]
    exact alistGet_set_self _ "appPort" _
  · intro k hk
    simp only [List.mem_cons, List.not_mem_nil, or_false, not_or] at hk
    obtain ⟨h1, h2, h3, h4, h5⟩ := hk
    unfold RewriteConfigMap
    rw [applyContainerEnv_get_ne _ _ _ _ h5,
      applyPortsAttributesShift_get_ne _ _ _ h4,
      applyAppPortShift_get_ne _ _ _ h3,
      applyRunArgsLabels_get_ne _ _ _ h2,
      alistGet_set_ne _ _ _ _ h1]

/-- Witness for C7 at concrete inputs: the demo map's appPort is
replaced by the shifted mapping string and the unknown keys image and
workspaceFolder keep their values. -/
theorem RewriteConfigMap_spec_witness :
    alistGet (RewriteConfigMap demoConfigMap "env-1" 1 demoAllocs demoLabels) "appPort" =
      some (.arr [.str "13000:3000"]) ∧
    alistGet (RewriteConfigMap demoConfigMap "env-1" 1 demoAllocs demoLabels) "image" =
      some (.str "node:20") ∧
    alistGet (RewriteConfigMap demoConfigMap "env-1" 1 demoAllocs demoLabels) "workspaceFolder" =
      some (.str "/ws") := by
  have h := RewriteConfigMap_spec demoConfigMap "env-1" 1 demoAllocs demoLabels
  refine ⟨?_, ?_, ?_⟩
  · rw [h.2.1 (by decide)]
    rfl
  · rw [h.2.2 "image" (by decide)]
    rfl
  · rw [h.2.2 "workspaceFolder" (by decide)]
    rfl

/-- The decimal digit character of a value below ten has the expected
code point. -/
theorem digitChar_toNat {n : Nat} (h : n < 10) : (digitChar n).toNat = 48 + n := by
  interval_cases n <;> decide

/-- The decimal digit character of a value below ten is a digit. -/
theorem isDigitB_digitChar {n : Nat} (h : n < 10) : isDigitB (digitChar n) = true := by
  interval_cases n <;> decide

/-- A digit character is not a minus sign. -/
theorem isDigitB_ne_minus {c : Char} (h : isDigitB c = true) : ¬(c = '-') := by
  intro hc
  subst hc
  simp [isDigitB] at h

/-- With enough fuel, the digit expansion is non-empty, consists of
digits, and folds back to its value. -/
theorem natDigitsAux_spec :
    ∀ (fuel n : Nat), n < fuel →
      natDigitsAux fuel n ≠ [] ∧
      (∀ c ∈ natDigitsAux fuel n, isDigitB c = true) ∧
      ∀ a : Nat, (natDigitsAux fuel n).foldl (fun x c => x * 10 + digitVal c) a =
        a * 10 ^ (natDigitsAux fuel n).length + n := by
  intro fuel
  induction fuel with
  | zero => intro n h; omega
  | succ f ih =>
    intro n hn
    by_cases h10 : n < 10
    · simp only [natDigitsAux, if_pos h10]
      refine ⟨by simp, by simp [isDigitB_digitChar h10], ?_⟩
      intro a
      simp only [List.foldl_cons, List.foldl_nil, List.length_singleton, pow_one]
      have : digitVal (digitChar n) = n := by
        unfold digitVal
        rw [digitChar_toNat h10]
        omega
      rw [this]
    · have hd : n / 10 < f := by
        have h1 : n / 10 < n := Nat.div_lt_self (by omega) (by omega)
        omega
      obtain ⟨ihne, ihdig, ihfold⟩ := ih (n / 10) hd
      simp only [natDigitsAux, if_neg h10]
      refine ⟨by simp, ?_, ?_⟩
      · intro c hc
        rcases List.mem_append.mp hc with h | h
        · exact ihdig c h
        · rw [List.mem_singleton.mp h]
          exact isDigitB_digitChar (Nat.mod_lt n (by omega))
      · intro a
        rw [List.foldl_append, ihfold a]
        simp only [List.foldl_cons, List.foldl_nil, List.length_append,
          List.length_singleton]
        have hdv : digitVal (digitChar (n % 10)) = n % 10 := by
          unfold digitVal
          rw [digitChar_toNat (Nat.mod_lt n (by omega))]
          omega
        rw [hdv, pow_succ]
        have := Nat.div_add_mod n 10
        ring_nf
        omega

/-- The digit expansion of a natural number parses back to itself. -/
theorem atoiNat_natDigits (n : Nat) : atoiNat (natDigits n) = some n := by
  obtain ⟨hne, hdig, hfold⟩ := natDigitsAux_spec (n + 1) n (by omega)
  have hne' : natDigits n ≠ [] := hne
  have h1 : (natDigits n).isEmpty = false := by
    cases hnd : natDigits n with
    | nil => exact absurd hnd hne'
    | cons c r => rfl
  have h2 : (natDigits n).all isDigitB = true := List.all_eq_true.mpr hdig
  unfold atoiNat
  rw [h1, h2]
  simp only [Bool.not_true, Bool.or_false, Bool.false_eq_true, if_false]
  have h3 := hfold 0
  simp only [Nat.zero_mul, Nat.zero_add] at h3
  exact congrArg some h3

/-- The first character of a digit expansion is a digit (hence not a
minus sign). -/
theorem natDigits_head_digit {n : Nat} {c : Char} {rest : List Char}
    (h : natDigits n = c :: rest) : isDigitB c = true := by
  obtain ⟨_, hdig, _⟩ := natDigitsAux_spec (n + 1) n (by omega)
  have hc : c ∈ natDigits n := by
    rw [h]
    exact List.mem_cons_self c rest
  exact hdig c hc

/-- Round trip of the character-level int codec. -/
theorem atoiChars_itoaChars (i : Int) : atoiChars (itoaChars i) = some i := by
  unfold itoaChars
  by_cases h : i < 0
  · rw [if_pos h]
    simp only [atoiChars, if_pos rfl]
    rw [atoiNat_natDigits]
    simp
    omega
  · rw [if_neg h]
    have hne : natDigits i.toNat ≠ [] :=
      (natDigitsAux_spec (i.toNat + 1) i.toNat (by omega)).1
    obtain ⟨c, rest, hcr⟩ := List.exists_cons_of_ne_nil hne
    rw [hcr]
    simp only [atoiChars]
    rw [if_neg (isDigitB_ne_minus (natDigits_head_digit hcr)), ← hcr, atoiNat_natDigits]
    simp
    omega

/-- Round trip of the modelled Itoa and Atoi. -/
theorem atoi_itoa (i : Int) : atoi (itoa i) = some i :=
  atoiChars_itoaChars i

/-- The modelled Itoa is injective. -/
theorem itoaChars_injective {i j : Int} (h : itoaChars i = itoaChars j) : i = j := by
  have h1 := atoiChars_itoaChars i
  rw [h, atoiChars_itoaChars j] at h1
  exact (Option.some.injEq _ _).mp h1.symm

/-- Data of an appended string is the appended data. -/
theorem strData_append (a b : String) : (a ++ b).data = a.data ++ b.data := by
  cases a
  cases b
  rfl

/-- Data of a per-port label key: the key stem followed by the decimal
container port. -/
theorem BuildPortLabel_data (cp : Int) :
    (BuildPortLabel cp).data = labelOriginalPortKey.data ++ itoaChars cp := by
  unfold BuildPortLabel itoa
  rw [strData_append]

/-- Every per-port label key carries the key stem. -/
theorem strHasPre_portKey (cp : Int) :
    strHasPre (BuildPortLabel cp) labelOriginalPortKey = true := by
  unfold strHasPre
  rw [BuildPortLabel_data]
  simp only [List.isPrefixOf_iff_prefix]
  exact List.prefix_append _ _

/-- Trimming the key stem from a per-port label key leaves the decimal
container port. -/
theorem strDropPre_portKey (cp : Int) :
    strDropPre (BuildPortLabel cp) labelOriginalPortKey = itoa cp := by
  unfold strDropPre
  have h : labelOriginalPortKey.data.isPrefixOf (BuildPortLabel cp).data = true :=
    strHasPre_portKey cp
  rw [if_pos h, BuildPortLabel_data, List.drop_left]
  rfl

/-- Distinct container ports have distinct per-port label keys. -/
theorem BuildPortLabel_ne_of_ne {c1 c2 : Int} (h : c1 ≠ c2) :
    BuildPortLabel c1 ≠ BuildPortLabel c2 := by
  intro he
  apply h
  apply itoaChars_injective
  have hd := congrArg String.data he
  rw [BuildPortLabel_data, BuildPortLabel_data] at hd
  exact List.append_cancel_left hd

/-- A key that does not carry the per-port stem differs from every
per-port label key. -/
theorem base_key_ne_portKey (k : String)
    (hk : strHasPre k labelOriginalPortKey = false) (cp : Int) :
    k ≠ BuildPortLabel cp := by
  intro he
  rw [he, strHasPre_portKey] at hk
  cases hk

/-- Setting a fresh key appends the binding. -/
theorem alistSet_fresh {α : Type} (m : List (String × α)) (k : String) (v : α)
    (h : ∀ kv ∈ m, kv.1 ≠ k) : alistSet m k v = m ++ [(k, v)] := by
  induction m with
  | nil => rfl
  | cons kv rest ih =>
    obtain ⟨k0, v0⟩ := kv
    simp only [alistSet]
    rw [if_neg (h (k0, v0) (by simp)), ih (fun kv hkv => h kv (by simp [hkv]))]
    rfl

/-- Folding fresh pairwise-distinct port-label insertions over a map
appends the port entries in order. -/
theorem foldl_alistSet_ports :
    ∀ (pas : List PortAllocation) (m : List (String × String)),
      (∀ pa ∈ pas, ∀ kv ∈ m, kv.1 ≠ BuildPortLabel pa.containerPort) →
      List.Pairwise (fun a b => a.containerPort ≠ b.containerPort) pas →
      pas.foldl (fun m pa => alistSet m (BuildPortLabel pa.containerPort) (itoa pa.hostPort)) m =
        m ++ pas.map (fun pa => (BuildPortLabel pa.containerPort, itoa pa.hostPort)) := by
  intro pas
  induction pas with
  | nil => intro m _ _; simp
  | cons pa rest ih =>
    intro m hfresh hpw
    simp only [List.foldl_cons]
    rw [alistSet_fresh m _ _ (fun kv hkv => hfresh pa (by simp) kv hkv)]
    have hfresh' : ∀ pa' ∈ rest,
        ∀ kv ∈ m ++ [(BuildPortLabel pa.containerPort, itoa pa.hostPort)],
        kv.1 ≠ BuildPortLabel pa'.containerPort := by
      intro pa' hpa' kv hkv
      rcases List.mem_append.mp hkv with h | h
      · exact hfresh pa' (List.mem_cons_of_mem _ hpa') kv h
      · rw [List.mem_singleton.mp h]
        exact BuildPortLabel_ne_of_ne ((List.pairwise_cons.mp hpw).1 pa' hpa')
    rw [ih _ hfresh' (List.pairwise_cons.mp hpw).2]
    simp

/-- The built label map is the seven base labels followed by the port
entries, provided the container ports are pairwise distinct. -/
theorem BuildLabels_eq (env : WorktreeEnv)
    (hdist : List.Pairwise (fun a b => a.containerPort ≠ b.containerPort) env.portAllocations) :
    BuildLabels env =
      [(labelManagedBy, managedByValue), (labelName, env.name), (labelBranch, env.branch),
       (labelWorktreePath, env.worktreePath), (labelSourceRepo, env.sourceRepoPath),
       (labelConfigPattern, env.configPattern.toStr), (labelCreatedAt, formatRFC3339 env.createdAt)]
      ++ env.portAllocations.map (fun pa => (BuildPortLabel pa.containerPort, itoa pa.hostPort)) := by
  unfold BuildLabels
  apply foldl_alistSet_ports _ _ ?_ hdist
  intro pa _ kv hkv
  simp only [List.mem_cons, List.not_mem_nil, or_false] at hkv
  rcases hkv with rfl | rfl | rfl | rfl | rfl | rfl | rfl
  · exact base_key_ne_portKey labelManagedBy (by decide) _
  · exact base_key_ne_portKey labelName (by decide) _
  · exact base_key_ne_portKey labelBranch (by decide) _
  · exact base_key_ne_portKey labelWorktreePath (by decide) _
  · exact base_key_ne_portKey labelSourceRepo (by decide) _
  · exact base_key_ne_portKey labelConfigPattern (by decide) _
  · exact base_key_ne_portKey labelCreatedAt (by decide) _

/-- Lookup hits in the left part of an appended association list. -/
theorem alistGet_append_left {α : Type} (m m' : List (String × α)) (k : String) (v : α)
    (h : alistGet m k = some v) : alistGet (m ++ m') k = some v := by
  induction m with
  | nil => simp [alistGet] at h
  | cons kv rest ih =>
    obtain ⟨k0, v0⟩ := kv
    simp only [alistGet] at h ⊢
    by_cases h0 : k0 = k
    · rw [if_pos h0] at h ⊢
      exact h
    · rw [if_neg h0] at h ⊢
      exact ih h

/-- Parsing the port entries recovers the container and host ports in
order, with empty service name and default protocol. -/
theorem ParsePortLabels_ports (pas : List PortAllocation) :
    ParsePortLabels (pas.map fun pa => (BuildPortLabel pa.containerPort, itoa pa.hostPort)) =
      .ok (pas.map fun pa =>
        { serviceName := "", containerPort := pa.containerPort,
          hostPort := pa.hostPort, protocol := "tcp", label := "" }) := by
  induction pas with
  | nil => rfl
  | cons pa rest ih =>
    simp only [List.map_cons, ParsePortLabels]
    rw [strHasPre_portKey, if_pos rfl, strDropPre_portKey, atoi_itoa, atoi_itoa, ih]
    rfl

/-- Parsing the printed form of a pattern recovers the pattern. -/
theorem parseConfigPattern_toStr (p : ConfigPattern) :
    ParseConfigPattern p.toStr = .ok p := by
  cases p <;> rfl

/-- Parsing the formatted creation time truncates to the second. -/
theorem parseRFC3339_format (t : GoTime) :
    parseRFC3339 (formatRFC3339 t) = some ⟨t.sec, 0⟩ := by
  unfold parseRFC3339 formatRFC3339
  rw [atoi_itoa]
  rfl

/-- Full evaluation of ParseLabels on a built label map with pairwise
distinct container ports. -/
theorem ParseLabels_BuildLabels (env : WorktreeEnv)
    (hdist : List.Pairwise (fun a b => a.containerPort ≠ b.containerPort) env.portAllocations) :
    ParseLabels (BuildLabels env) =
      .ok { name := env.name, branch := env.branch, worktreePath := env.worktreePath,
            sourceRepoPath := env.sourceRepoPath, configPattern := env.configPattern,
            portAllocations := env.portAllocations.map (fun pa =>
              { serviceName := "", containerPort := pa.containerPort,
                hostPort := pa.hostPort, protocol := "tcp", label := "" }),
            createdAt := ⟨env.createdAt.sec, 0⟩ } := by
  rw [BuildLabels_eq env hdist]
  set ports := env.portAllocations.map
    (fun pa => (BuildPortLabel pa.containerPort, itoa pa.hostPort)) with hports
  set base : List (String × String) :=
    [(labelManagedBy, managedByValue), (labelName, env.name), (labelBranch, env.branch),
     (labelWorktreePath, env.worktreePath), (labelSourceRepo, env.sourceRepoPath),
     (labelConfigPattern, env.configPattern.toStr), (labelCreatedAt, formatRFC3339 env.createdAt)]
    with hbase
  have h1 : alistGet (base ++ ports) labelManagedBy = some managedByValue :=
    alistGet_append_left _ _ _ _ rfl
  have h2 : alistGet (base ++ ports) labelName = some env.name :=
    alistGet_append_left _ _ _ _ rfl
  have h3 : alistGet (base ++ ports) labelBranch = some env.branch :=
    alistGet_append_left _ _ _ _ rfl
  have h4 : alistGet (base ++ ports) labelWorktreePath = some env.worktreePath :=
    alistGet_append_left _ _ _ _ rfl
  have h5 : alistGet (base ++ ports) labelSourceRepo = some env.sourceRepoPath :=
    alistGet_append_left _ _ _ _ rfl
  have h6 : alistGet (base ++ ports) labelConfigPattern = some env.configPattern.toStr :=
    alistGet_append_left _ _ _ _ rfl
  have h7 : alistGet (base ++ ports) labelCreatedAt = some (formatRFC3339 env.createdAt) :=
    alistGet_append_left _ _ _ _ rfl
  have hskip : ParsePortLabels (base ++ ports) = ParsePortLabels ports := rfl
  unfold ParseLabels
  simp only [h1, h2, h3, h4, h5, h6, h7, Option.isNone_some, Option.getD_some,
    List.filter_cons, List.filter_nil, Bool.false_eq_true, if_false,
    ne_eq, not_true_eq_false, parseConfigPattern_toStr,
    parseRFC3339_format, hskip, hports, ParsePortLabels_ports]

/-- C6 counterexample: the round trip is lossy when two allocations
share a container port, because the label key encodes only the
container port and the second insertion overwrites the first. For
envDup (container port 3000 mapped to both 13000 and 13001) the parsed
environment has one allocation, so the multiset of
(containerPort, hostPort) pairs differs. -/
theorem label_roundtrip_counterexample :
    ParseLabels (BuildLabels envDup) = .ok envDupParsed ∧
    ¬(((envDupParsed.portAllocations.map fun pa => (pa.containerPort, pa.hostPort)) :
        Multiset (Int × Int)) =
      ((envDup.portAllocations.map fun pa => (pa.containerPort, pa.hostPort)) :
        Multiset (Int × Int))) := by
  constructor
  · rfl
  · decide

/-- C6 amended: for every environment whose allocations carry pairwise
distinct container ports, building the label map and parsing it back
yields an environment with equal name, branch, worktree path, source
repo path and config pattern, the creation time truncated to the
second, and the same multiset of (containerPort, hostPort) pairs. -/
theorem label_roundtrip_amended (env : WorktreeEnv)
    (hdist : List.Pairwise (fun a b => a.containerPort ≠ b.containerPort) env.portAllocations) :
    ∃ env', ParseLabels (BuildLabels env) = .ok env' ∧
      env'.name = env.name ∧ env'.branch = env.branch ∧
      env'.worktreePath = env.worktreePath ∧
      env'.sourceRepoPath = env.sourceRepoPath ∧
      env'.configPattern = env.configPattern ∧
      env'.createdAt = ⟨env.createdAt.sec, 0⟩ ∧
      ((env'.portAllocations.map fun pa => (pa.containerPort, pa.hostPort)) :
        Multiset (Int × Int)) =
        ((env.portAllocations.map fun pa => (pa.containerPort, pa.hostPort)) :
          Multiset (Int × Int)) := by
  refine ⟨_, ParseLabels_BuildLabels env hdist, rfl, rfl, rfl, rfl, rfl, rfl, ?_⟩
  have hl : ((env.portAllocations.map (fun pa =>
      ({ serviceName := "", containerPort := pa.containerPort,
         hostPort := pa.hostPort, protocol := "tcp", label := "" } : PortAllocation))).map
        fun pa => (pa.containerPort, pa.hostPort)) =
      env.portAllocations.map fun pa => (pa.containerPort, pa.hostPort) := by
    rw [List.map_map]
    rfl
  exact congrArg _ hl

/-- Witness for the amended C6 at the scenario S5 environment: two
distinct container ports, a sub-second creation time component. -/
theorem label_roundtrip_amended_witness :
    List.Pairwise (fun a b => a.containerPort ≠ b.containerPort) envS5.portAllocations ∧
    ∃ env', ParseLabels (BuildLabels envS5) = .ok env' ∧
      env'.name = envS5.name ∧ env'.branch = envS5.branch ∧
      env'.worktreePath = envS5.worktreePath ∧
      env'.sourceRepoPath = envS5.sourceRepoPath ∧
      env'.configPattern = envS5.configPattern ∧
      env'.createdAt = ⟨envS5.createdAt.sec, 0⟩ ∧
      ((env'.portAllocations.map fun pa => (pa.containerPort, pa.hostPort)) :
        Multiset (Int × Int)) =
        ((envS5.portAllocations.map fun pa => (pa.containerPort, pa.hostPort)) :
          Multiset (Int × Int)) := by
  constructor
  · decide
  · exact label_roundtrip_amended envS5 (by decide)
